import Mathlib

/-
Verification of the polyvuvu prediction-market alert bot against its design
specification.  The Python sources under src/ are shallowly embedded: pure
functions become Lean functions over rational numbers and lists, the dynamic
(duck-typed) values that matter to the behaviour are modelled by small
inductive types, and Python exceptions become an explicit error type carried
in Except.  External collaborators (HTTP market source, LLM service, Telegram,
Moltbook) are modelled as oracle inputs, exactly at the call boundary; all
code on this side of those boundaries is translated from the source.
-/

namespace Polyvuvu

/-- Python exception classes that occur in the embedded code paths. -/
inductive PyErr where
  | valueError
  | typeError
  | keyError
  | attributeError
  | jsonDecodeError
  | requestException
deriving DecidableEq, Repr

/-- An atomic JSON/Python value (None, bool, number, string). -/
inductive PyAtom where
  | aNone
  | aBool (b : Bool)
  | aNum (q : ℚ)
  | aStr (s : String)
deriving DecidableEq, Repr

/-- A decoded JSON value as produced by json.loads, to the nesting depth the
analyzed code paths inspect (atoms, lists of atoms, string-keyed objects of
atoms). -/
inductive PyVal where
  | atom (a : PyAtom)
  | list (xs : List PyAtom)
  | dict (kvs : List (String × PyAtom))
deriving DecidableEq, Repr

/-- Value of a digit character. -/
def digitVal (c : Char) : Nat := c.toNat - 48

/-- Decimal value of a digit list (most significant first). -/
def decDigitsVal (cs : List Char) : Nat :=
  cs.foldl (fun n c => n * 10 + digitVal c) 0

/-- All characters are decimal digits. -/
def allDigits (cs : List Char) : Bool := cs.all Char.isDigit

/-- Apply an optional leading minus sign. -/
def ratSign (neg : Bool) (q : ℚ) : ℚ := if neg then -q else q

/-- Python float(string) on decimal literals: optional sign, integer part,
optional fractional part.  Returns none where Python raises ValueError. -/
def parseDecimal (s : String) : Option ℚ :=
  let cs := s.toList
  let neg := match cs with
    | '-' :: _ => true
    | _ => false
  let cs2 := match cs with
    | '-' :: rest => rest
    | _ => cs
  let intPart := cs2.takeWhile (fun c => c != '.')
  let restPart := cs2.dropWhile (fun c => c != '.')
  match restPart with
  | [] =>
    if intPart ≠ [] ∧ allDigits intPart then
      some (ratSign neg (decDigitsVal intPart : ℚ))
    else none
  | _ :: fracPart =>
    if (intPart ≠ [] ∨ fracPart ≠ []) ∧ allDigits intPart ∧ allDigits fracPart then
      some (ratSign neg ((decDigitsVal intPart : ℚ) +
        (decDigitsVal fracPart : ℚ) / (10 ^ fracPart.length)))
    else none

/-- Python int(string): optional sign followed by decimal digits only.
Returns none where Python raises ValueError (e.g. int of a non-numeric or
decimal-point string). -/
def parseIntStr (s : String) : Option Int :=
  match s.toList with
  | '-' :: rest =>
    if rest ≠ [] ∧ allDigits rest then some (-(decDigitsVal rest : Int)) else none
  | cs =>
    if cs ≠ [] ∧ allDigits cs then some ((decDigitsVal cs : Int)) else none

/-- Truncation toward zero, as Python int() applied to a number. -/
def ratTrunc (q : ℚ) : Int := if q < 0 then -(Rat.floor (-q)) else Rat.floor q

/-- Python float() applied to an atomic value: numbers pass through, booleans
become 0/1, numeric strings are parsed (ValueError otherwise), None raises
TypeError. -/
def pyFloat : PyAtom → Except PyErr ℚ
  | .aNum q => .ok q
  | .aBool b => .ok (if b then 1 else 0)
  | .aStr s =>
    match parseDecimal s with
    | some q => .ok q
    | none => .error .valueError
  | .aNone => .error .typeError

/-- Python int() applied to an atomic value: numbers truncate toward zero,
booleans become 0/1, integer-literal strings are parsed (ValueError
otherwise), None raises TypeError. -/
def pyInt : PyAtom → Except PyErr Int
  | .aNum q => .ok (ratTrunc q)
  | .aBool b => .ok (if b then 1 else 0)
  | .aStr s =>
    match parseIntStr s with
    | some n => .ok n
    | none => .error .valueError
  | .aNone => .error .typeError

/-- Python bool() applied to an atomic value (truthiness). -/
def pyBoolAtom : PyAtom → Bool
  | .aNone => false
  | .aBool b => b
  | .aNum q => decide (q ≠ 0)
  | .aStr s => decide (s ≠ "")

/-- Python str() applied to an atomic value. -/
def pyStrAtom : PyAtom → String
  | .aNone => "None"
  | .aBool true => "True"
  | .aBool false => "False"
  | .aNum q => toString q
  | .aStr s => s

/-- obj.get(key, default) on a decoded JSON value: defined for dict objects,
AttributeError on any non-dict (Python lists, strings and numbers have no
get method). -/
def pyGet (v : PyVal) (key : String) (default : PyAtom) : Except PyErr PyAtom :=
  match v with
  | .dict kvs => .ok ((kvs.lookup key).getD default)
  | _ => .error .attributeError

/-- A short stand-in for str(e) of an exception, used in reasoning texts. -/
def pyErrStr : PyErr → String
  | .valueError => "ValueError"
  | .typeError => "TypeError"
  | .keyError => "KeyError"
  | .attributeError => "AttributeError"
  | .jsonDecodeError => "JSONDecodeError"
  | .requestException => "RequestException"

/-
Portfolio module (src/portfolio.py).
-/

/-- A ledger record, per the Trade TypedDict of src/portfolio.py.  The
position field keeps the dynamic value received from the analyzer
(analysis.recommended_position may be None or a string). -/
structure Trade where
  id : String
  question : String
  position : PyAtom
  entry_price : ℚ
  confidence : Int
  entry_date : String
  status : String
  exit_price : Option ℚ
  pnl : Option ℚ
  resolved_date : Option String
deriving DecidableEq, Repr

/-- The dynamic value held in Market.outcome_prices.  The fetcher
(src/polymarket/fetcher.py) always builds a Python list of floats, while
add_trade (src/portfolio.py line 53) accesses the value with the dict method
.get; the sum type records which shape the value actually has so that the
attribute dispatch can be modelled faithfully. -/
inductive OddsVal where
  | listV (ps : List ℚ)
  | dictV (d : List (String × ℚ))
deriving DecidableEq, Repr

/-- Number of entries of the odds value. -/
def oddsLen : OddsVal → Nat
  | .listV ps => ps.length
  | .dictV d => d.length

/-- A Polymarket market, per the Market dataclass of
src/polymarket/fetcher.py. -/
structure Market where
  id : String
  question : String
  slug : String
  outcome_prices : OddsVal
  outcomes : List String
  volume : ℚ
  liquidity : ℚ
  end_date : Option String := none
  description : Option String := none
deriving DecidableEq, Repr

/-- The dict method call outcome_prices.get(position, default): on a Python
list this raises AttributeError (lists have no get method); on a dict it
looks the position up, returning the default when absent (also when the
position is None, since the embedded dicts carry only string keys). -/
def oddsGet (odds : OddsVal) (position : PyAtom) (default : ℚ) : Except PyErr ℚ :=
  match odds with
  | .listV _ => .error .attributeError
  | .dictV d =>
    match position with
    | .aStr s => .ok ((d.lookup s).getD default)
    | _ => .ok default

/-- The duplicate-open check of add_trade (src/portfolio.py line 48):
any(t["id"] == market.id for t in trades if t["status"] == "open"). -/
def hasOpenTrade (mid : String) (trades : List Trade) : Bool :=
  trades.any fun t => t.status == "open" && t.id == mid

/-- add_trade (src/portfolio.py lines 43-70).  The current time
(datetime.now().isoformat()) is passed in as the parameter now.  Returns the
trades list that _save_portfolio would persist, or the exception raised. -/
def add_trade (now : String) (market : Market) (position : PyAtom)
    (confidence : Int) (trades : List Trade) : Except PyErr (List Trade) :=
  if hasOpenTrade market.id trades then
    .ok trades
  else
    match oddsGet market.outcome_prices position (1/2) with
    | .error e => .error e
    | .ok entry_price =>
      let trade : Trade :=
        { id := market.id
          question := market.question
          position := position
          entry_price := entry_price
          confidence := confidence
          entry_date := now
          status := "open"
          exit_price := none
          pnl := none
          resolved_date := none }
      .ok (trades ++ [trade])

/-- The ledger as persisted on disk after an add_trade call: on success the
returned list is written by _save_portfolio; when the call raises, the write
is never reached and the file keeps the previous trades. -/
def add_trade_run (now : String) (market : Market) (position : PyAtom)
    (confidence : Int) (trades : List Trade) : List Trade :=
  match add_trade now market position confidence trades with
  | .ok l => l
  | .error _ => trades

/-- Number of open trades in the ledger carrying the given market id. -/
def openCountFor (mid : String) (trades : List Trade) : Nat :=
  (trades.filter fun t => t.status == "open" && t.id == mid).length

/-- get_performance_summary (src/portfolio.py lines 73-102), returning the
Python dict as an ordered key-value list. -/
def get_performance_summary (trades : List Trade) : List (String × ℚ) :=
  let closed := trades.filter fun t => !(t.status == "open")
  let open_trades := trades.filter fun t => t.status == "open"
  if closed.isEmpty then
    [("total_trades", (trades.length : ℚ)),
     ("open_trades", (open_trades.length : ℚ)),
     ("closed_trades", 0),
     ("win_rate", 0),
     ("total_pnl", 0),
     ("roi", 0)]
  else
    let wins := closed.filter fun t => t.status == "won"
    let total_pnl : ℚ := (closed.filterMap fun t => t.pnl).sum
    let invested : ℚ := (closed.map fun _ => (1 : ℚ)).sum
    [("total_trades", (trades.length : ℚ)),
     ("open_trades", (open_trades.length : ℚ)),
     ("closed_trades", (closed.length : ℚ)),
     ("wins", (wins.length : ℚ)),
     ("win_rate", ((wins.length : ℚ) / (closed.length : ℚ)) * 100),
     ("total_pnl", total_pnl),
     ("roi", if invested > 0 then (total_pnl / invested) * 100 else 0)]

/-
Fetcher module (src/polymarket/fetcher.py).
-/

/-- A raw market listing as delivered by the Gamma API, covering the shapes
the parsing loop of get_active_markets handles: each field is either absent
(item.get supplies the default) or a decoded JSON value.  The list-valued
fields outcomePrices and outcomes are modelled in their decoded form (the
isinstance-str branch of the source merely json-decodes the same content
first; a missing field defaults to the literal "[]", which decodes to []). -/
structure RawItem where
  outcomePrices : Option (List PyAtom) := none
  outcomes : Option (List String) := none
  id : Option String := none
  question : Option String := none
  slug : Option String := none
  volume : Option PyAtom := none
  liquidity : Option PyAtom := none
  endDate : Option String := none
  description : Option String := none
deriving DecidableEq, Repr

/-- One iteration body of the parsing loop of
PolymarketFetcher.get_active_markets (src/polymarket/fetcher.py lines
81-110): convert each outcome price with float(), take outcomes as decoded,
convert volume and liquidity with float() (defaulting to 0), and build the
Market.  Any ValueError/TypeError surfaces in the Except error component.
Note the loop performs no comparison between the lengths of the two lists. -/
def parse_item (it : RawItem) : Except PyErr Market := do
  let outcome_prices ← (it.outcomePrices.getD []).mapM pyFloat
  let outcomes := it.outcomes.getD []
  let volume ← pyFloat (it.volume.getD (.aNum 0))
  let liquidity ← pyFloat (it.liquidity.getD (.aNum 0))
  .ok { id := it.id.getD ""
        question := it.question.getD "Unknown"
        slug := it.slug.getD ""
        outcome_prices := .listV outcome_prices
        outcomes := outcomes
        volume := volume
        liquidity := liquidity
        end_date := it.endDate
        description := it.description }

/-- The parsing loop of get_active_markets (src/polymarket/fetcher.py lines
80-115): items whose parse raises (the except clause catches ValueError,
KeyError and TypeError, the only exceptions parse_item produces) are skipped
with continue; the rest are appended in order. -/
def get_active_markets_parse : List RawItem → List Market
  | [] => []
  | it :: rest =>
    match parse_item it with
    | .ok m => m :: get_active_markets_parse rest
    | .error _ => get_active_markets_parse rest

/-
Analyzer module (src/analysis/gemini_analyzer.py), OpenRouter path.
-/

/-- The EdgeAnalysis dataclass (src/analysis/gemini_analyzer.py lines
21-29).  recommended_position keeps the dynamic JSON value stored by
result.get("recommended_position") (None or an outcome-name string). -/
structure EdgeAnalysis where
  market_question : String
  confidence_score : Int
  has_edge : Bool
  reasoning : String
  recommended_position : PyAtom := .aNone
  current_odds : List (String × ℚ) := []
deriving DecidableEq, Repr

/-- Python round-half-to-even of a rational to an integer. -/
def bankersRound (q : ℚ) : Int :=
  let f := Rat.floor q
  let r := q - (f : ℚ)
  if r < 1/2 then f
  else if 1/2 < r then f + 1
  else if f % 2 = 0 then f else f + 1

/-- Python round(x, 1). -/
def round1 (q : ℚ) : ℚ := (bankersRound (q * 10) : ℚ) / 10

/-- The current-odds snapshot {outcome: round(price*100, 1)} built by zipping
outcomes with prices (src/analysis/gemini_analyzer.py lines 156-159). -/
def currentOdds (outcomes : List String) (prices : List ℚ) : List (String × ℚ) :=
  (outcomes.zip prices).map fun p => (p.1, round1 (p.2 * 100))

/-- The exception classes caught by OpenRouterAnalyzer.analyze_market
(src/analysis/gemini_analyzer.py line 170): json.JSONDecodeError, KeyError,
TypeError, requests.RequestException.  ValueError and AttributeError are not
in the tuple. -/
def caughtOR : PyErr → Bool
  | .jsonDecodeError => true
  | .keyError => true
  | .typeError => true
  | .requestException => true
  | _ => false

/-- The body of the try block of OpenRouterAnalyzer.analyze_market after the
LLM response text has been json-decoded (src/analysis/gemini_analyzer.py
lines 154-168).  The llm argument is the oracle outcome of the HTTP call,
fence-stripping and json.loads (lines 125-154): either an exception from
that stage or the decoded JSON value.  result.get dispatches dynamically
(AttributeError on a non-dict) and int() on the confidence raises ValueError
for a non-numeric string. -/
def analyze_market_inner (question : String) (outcomes : List String)
    (prices : List ℚ) (llm : Except PyErr PyVal) : Except PyErr EdgeAnalysis := do
  let result ← llm
  let csRaw ← pyGet result "confidence_score" (.aNum 5)
  let cs ← pyInt csRaw
  let heRaw ← pyGet result "has_edge" (.aBool false)
  let rRaw ← pyGet result "reasoning" (.aStr "Analysis failed")
  let rpRaw ← pyGet result "recommended_position" .aNone
  .ok { market_question := question
        confidence_score := min 10 (max 1 cs)
        has_edge := pyBoolAtom heRaw
        reasoning := pyStrAtom rRaw
        recommended_position := rpRaw
        current_odds := currentOdds outcomes prices }

/-- The synthetic low-confidence analysis built in the except clause of
OpenRouterAnalyzer.analyze_market (src/analysis/gemini_analyzer.py lines
171-180). -/
def syntheticAnalysis (question : String) (outcomes : List String)
    (prices : List ℚ) (e : PyErr) : EdgeAnalysis :=
  { market_question := question
    confidence_score := 1
    has_edge := false
    reasoning := "Analysis failed: " ++ pyErrStr e
    recommended_position := .aNone
    current_odds := currentOdds outcomes prices }

/-- OpenRouterAnalyzer.analyze_market (src/analysis/gemini_analyzer.py lines
90-180): the try body with its except clause, which converts exactly the
caughtOR exception classes into the synthetic analysis and propagates every
other exception. -/
def analyze_market (question : String) (outcomes : List String)
    (prices : List ℚ) (llm : Except PyErr PyVal) : Except PyErr EdgeAnalysis :=
  match analyze_market_inner question outcomes prices llm with
  | .ok a => .ok a
  | .error e =>
    if caughtOR e then .ok (syntheticAnalysis question outcomes prices e)
    else .error e

/-
Orchestrator (src/main.py, analyze_and_alert, lines 22-121).
The external calls made inside the loop body - analyze_market over the
network, send_dm, send_alert, post_edge_alert - are modelled as per-item
oracle outcomes; time.sleep and the calls themselves are recorded in an
event trace so that ordering and omission can be stated.
-/

/-- An observable step of the orchestrator loop, tagged with the index of the
market being processed: the analyze_market call, the add_trade call, the
peer-review DM, the Telegram send_alert call, the Moltbook post, the caught
exception (the print in the except clause), and the rate-limit sleep. -/
inductive Event where
  | analyzeE (i : Nat)
  | recordE (i : Nat)
  | dmE (i : Nat)
  | tgE (i : Nat)
  | mbE (i : Nat)
  | errorE (i : Nat)
  | sleepE (i : Nat)
deriving DecidableEq, Repr

/-- Index of the market an event belongs to. -/
def Event.idx : Event → Nat
  | .analyzeE i => i
  | .recordE i => i
  | .dmE i => i
  | .tgE i => i
  | .mbE i => i
  | .errorE i => i
  | .sleepE i => i

/-- Oracle outcomes of the external calls made while processing one market:
the analyze_market result (or the exception it raised), the boolean results
of send_dm, send_alert and post_edge_alert, and the wall-clock timestamp
datetime.now() would yield inside add_trade. -/
structure ItemOracle where
  analysis : Except PyErr EdgeAnalysis
  dmOk : Bool
  tgOk : Bool
  mbOk : Bool
  now : String

/-- Result of processing one market: the ledger after the item, the
contribution to alerts_sent, the emitted events, and whether the per-item
except clause fired (in which case continue skips the sleep). -/
structure ItemResult where
  ledger : List Trade
  inc : Nat
  events : List Event
  raised : Bool
deriving DecidableEq, Repr

/-- The loop body of analyze_and_alert (src/main.py lines 58-115) for the
market at index i: call the analyzer; if the analysis reports an edge with
confidence at or above the threshold, record the paper trade, optionally DM
the peer, send the Telegram alert (counting a success into alerts_sent) and
optionally post to Moltbook.  Any exception - from the analyzer or from
add_trade - is caught by the per-item except clause, which prints and
continues. -/
def process_item (threshold : Int) (ask_peer : Option String)
    (dmAvail mbAvail : Bool) (i : Nat) (m : Market) (o : ItemOracle)
    (ledger : List Trade) : ItemResult :=
  match o.analysis with
  | .error _ => ⟨ledger, 0, [.analyzeE i, .errorE i], true⟩
  | .ok a =>
    if a.has_edge = true ∧ threshold ≤ a.confidence_score then
      match add_trade o.now m a.recommended_position a.confidence_score ledger with
      | .error _ => ⟨ledger, 0, [.analyzeE i, .recordE i, .errorE i], true⟩
      | .ok ledger2 =>
        ⟨ledger2,
         if o.tgOk then 1 else 0,
         [Event.analyzeE i, Event.recordE i]
           ++ (if ask_peer.isSome = true ∧ dmAvail = true then [Event.dmE i] else [])
           ++ [Event.tgE i]
           ++ (if mbAvail = true then [Event.mbE i] else []),
         false⟩
    else ⟨ledger, 0, [.analyzeE i], false⟩

/-- The for loop of analyze_and_alert (src/main.py lines 58-119): process
the remaining markets starting at index i, threading the ledger, summing the
alerts_sent increments and concatenating the event traces.  The rate-limit
sleep (lines 117-119) runs when the loop body completed without continue and
the item is not the last one (rest nonempty is exactly i < len(markets)-1
when the loop starts at index 0). -/
def analyze_and_alert_go (threshold : Int) (ask_peer : Option String)
    (dmAvail mbAvail : Bool) (oracles : Nat → ItemOracle) :
    Nat → List Market → List Trade → Nat × List Trade × List Event
  | _, [], ledger => (0, ledger, [])
  | i, m :: rest, ledger =>
    let r := process_item threshold ask_peer dmAvail mbAvail i m (oracles i) ledger
    let sl := if r.raised = false ∧ rest ≠ [] then [Event.sleepE i] else []
    let next := analyze_and_alert_go threshold ask_peer dmAvail mbAvail oracles
      (i + 1) rest r.ledger
    (r.inc + next.1, next.2.1, r.events ++ (sl ++ next.2.2))

/-- analyze_and_alert (src/main.py lines 22-121).  The Moltbook helpers
moltbook_post and moltbook_dm are non-None exactly when one of
post_to_moltbook/ask_peer requested the import and the import succeeded
(importOk); ledger0 is the portfolio file content at the start.  Returns
(alerts_sent, final ledger, event trace). -/
def analyze_and_alert (threshold : Int) (post_to_moltbook : Bool)
    (ask_peer : Option String) (importOk : Bool) (oracles : Nat → ItemOracle)
    (markets : List Market) (ledger0 : List Trade) :
    Nat × List Trade × List Event :=
  let avail := (post_to_moltbook || ask_peer.isSome) && importOk
  analyze_and_alert_go threshold ask_peer avail avail oracles 0 markets ledger0

/-
Concrete inputs used in counterexamples and witnesses.
-/

/-- A market exactly as the fetcher builds it: outcome_prices is a Python
list of floats. -/
def mListYesNo : Market :=
  { id := "0xRain"
    question := "Will it rain tomorrow?"
    slug := "will-it-rain-tomorrow"
    outcome_prices := .listV [35/100, 65/100]
    outcomes := ["Yes", "No"]
    volume := 1000
    liquidity := 500 }

/-- The same market with its odds held as the mapping add_trade assumes
(the shape named in the add_trade comment, src/portfolio.py line 52). -/
def mDictYesNo : Market :=
  { id := "0xRain"
    question := "Will it rain tomorrow?"
    slug := "will-it-rain-tomorrow"
    outcome_prices := .dictV [("Yes", 35/100), ("No", 65/100)]
    outcomes := ["Yes", "No"]
    volume := 1000
    liquidity := 500 }

/-- A raw listing with three outcomes but only two prices; every field
parses, so the loop keeps it. -/
def itemMismatch : RawItem :=
  { outcomePrices := some [.aStr "0.5", .aStr "0.5"]
    outcomes := some ["Yes", "No", "Maybe"]
    id := some "0xTri"
    question := some "Which of three?"
    slug := some "which-of-three"
    volume := some (.aNum 1000)
    liquidity := some (.aNum 5) }

/-- A decoded LLM response whose confidence_score is a non-numeric string:
json.loads succeeds, result.get succeeds, and int("high") raises
ValueError. -/
def badConfidenceResult : PyVal :=
  .dict [("confidence_score", .aStr "high"), ("has_edge", .aBool true),
         ("reasoning", .aStr "Strong edge"), ("recommended_position", .aStr "Yes")]

/-- An alert-worthy analysis (edge, confidence 9 of 10). -/
def edgeAnalysis9 : EdgeAnalysis :=
  { market_question := "Will it rain tomorrow?"
    confidence_score := 9
    has_edge := true
    reasoning := "Mispriced."
    recommended_position := .aStr "Yes"
    current_odds := [("Yes", 35), ("No", 65)] }

/-- A below-threshold analysis (edge, confidence 5). -/
def edgeAnalysis5 : EdgeAnalysis :=
  { market_question := "Will it rain tomorrow?"
    confidence_score := 5
    has_edge := true
    reasoning := "Weak."
    recommended_position := .aStr "Yes"
    current_odds := [("Yes", 35), ("No", 65)] }

/-- Oracle for a batch whose first item's analyzer call raises and whose
later items return a below-threshold analysis. -/
def oracleFirstRaises : Nat → ItemOracle := fun i =>
  if i = 0 then ⟨.error .requestException, true, true, true, "t0"⟩
  else ⟨.ok edgeAnalysis5, true, true, true, "t1"⟩

/-- Oracle whose analysis is always alert-worthy. -/
def oracleWorthy : Nat → ItemOracle := fun _ =>
  ⟨.ok edgeAnalysis9, true, true, true, "t"⟩

/-- Oracle for a three-market batch where the analyzer raises for the middle
market and reports an alert-worthy edge for the others. -/
def oracleMidRaises : Nat → ItemOracle := fun i =>
  if i = 1 then ⟨.error .requestException, true, true, true, "t1"⟩
  else ⟨.ok edgeAnalysis9, true, true, true, "t"⟩

/-
Helper lemmas.
-/

theorem mem_if_singleton_iff {c : Prop} [Decidable c] (e x : Event) :
    (e ∈ (if c then [x] else [])) ↔ (e = x ∧ c) := by
  split
  · simp [*]
  · simp [*]

theorem mem_of_append_cons_two {α : Type} (e1 e2 x : α) (rest l1 l2 : List α)
    (h : e1 :: e2 :: rest = l1 ++ x :: l2) (h1 : x ≠ e1) (h2 : x ≠ e2) :
    e2 ∈ l1 := by
  cases l1 with
  | nil =>
    simp only [List.nil_append, List.cons.injEq] at h
    exact absurd h.1.symm h1
  | cons b l1 =>
    cases l1 with
    | nil =>
      simp only [List.cons_append, List.nil_append, List.cons.injEq] at h
      exact absurd h.2.1.symm h2
    | cons b2 l1 =>
      simp only [List.cons_append, List.cons.injEq] at h
      simp [h.2.1]

theorem process_item_mem_cases (threshold : Int) (ask_peer : Option String)
    (dmAvail mbAvail : Bool) (i : Nat) (m : Market) (o : ItemOracle)
    (ledger : List Trade) :
    ∀ e ∈ (process_item threshold ask_peer dmAvail mbAvail i m o ledger).events,
      e = .analyzeE i ∨ e = .recordE i ∨ e = .dmE i ∨ e = .tgE i ∨
        e = .mbE i ∨ e = .errorE i := by
  intro e he
  unfold process_item at he
  split at he
  · simp only [List.mem_cons, List.not_mem_nil, or_false] at he
    tauto
  · split at he
    · split at he
      · simp only [List.mem_cons, List.not_mem_nil, or_false] at he
        tauto
      · simp only [List.mem_append, List.mem_cons, List.not_mem_nil, or_false,
          mem_if_singleton_iff] at he
        tauto
    · simp only [List.mem_cons, List.not_mem_nil, or_false] at he
      tauto

theorem process_item_events_idx (threshold : Int) (ask_peer : Option String)
    (dmAvail mbAvail : Bool) (i : Nat) (m : Market) (o : ItemOracle)
    (ledger : List Trade) :
    ∀ e ∈ (process_item threshold ask_peer dmAvail mbAvail i m o ledger).events,
      e.idx = i := by
  intro e he
  rcases process_item_mem_cases threshold ask_peer dmAvail mbAvail i m o ledger e he with
    h | h | h | h | h | h <;> subst h <;> rfl

theorem process_item_no_sleep (threshold : Int) (ask_peer : Option String)
    (dmAvail mbAvail : Bool) (i : Nat) (m : Market) (o : ItemOracle)
    (ledger : List Trade) (j : Nat) :
    Event.sleepE j ∉ (process_item threshold ask_peer dmAvail mbAvail i m o ledger).events := by
  intro he
  rcases process_item_mem_cases threshold ask_peer dmAvail mbAvail i m o ledger _ he with
    h | h | h | h | h | h <;> exact Event.noConfusion h

theorem process_item_analyze_mem (threshold : Int) (ask_peer : Option String)
    (dmAvail mbAvail : Bool) (i : Nat) (m : Market) (o : ItemOracle)
    (ledger : List Trade) :
    Event.analyzeE i ∈ (process_item threshold ask_peer dmAvail mbAvail i m o ledger).events := by
  unfold process_item
  split
  · simp
  · split
    · split
      · simp
      · simp
    · simp

theorem process_item_error_iff (threshold : Int) (ask_peer : Option String)
    (dmAvail mbAvail : Bool) (i : Nat) (m : Market) (o : ItemOracle)
    (ledger : List Trade) (j : Nat) :
    (Event.errorE j ∈ (process_item threshold ask_peer dmAvail mbAvail i m o ledger).events) ↔
      (j = i ∧ (process_item threshold ask_peer dmAvail mbAvail i m o ledger).raised = true) := by
  unfold process_item
  split
  · simp [Event.errorE.injEq]
  · split
    · split
      · simp [Event.errorE.injEq]
      · simp [mem_if_singleton_iff]
    · simp

theorem process_item_of_analysis_error (threshold : Int) (ask_peer : Option String)
    (dmAvail mbAvail : Bool) (i : Nat) (m : Market) (o : ItemOracle)
    (ledger : List Trade) (er : PyErr) (herr : o.analysis = .error er) :
    process_item threshold ask_peer dmAvail mbAvail i m o ledger =
      ⟨ledger, 0, [.analyzeE i, .errorE i], true⟩ := by
  unfold process_item
  rw [herr]

theorem go_idx_ge (threshold : Int) (ask_peer : Option String)
    (dmAvail mbAvail : Bool) (oracles : Nat → ItemOracle) :
    ∀ (ms : List Market) (k : Nat) (ledger : List Trade) (e : Event),
      e ∈ (analyze_and_alert_go threshold ask_peer dmAvail mbAvail oracles k ms ledger).2.2 →
      k ≤ e.idx := by
  intro ms
  induction ms with
  | nil =>
    intro k ledger e he
    simp [analyze_and_alert_go] at he
  | cons m rest ih =>
    intro k ledger e he
    simp only [analyze_and_alert_go, List.mem_append, mem_if_singleton_iff] at he
    rcases he with he | he | he
    · exact le_of_eq (process_item_events_idx threshold ask_peer dmAvail mbAvail
        k m (oracles k) ledger e he).symm
    · rw [he.1]
      exact le_refl k
    · have := ih (k + 1) _ e he
      omega

theorem go_analyze_mem (threshold : Int) (ask_peer : Option String)
    (dmAvail mbAvail : Bool) (oracles : Nat → ItemOracle) :
    ∀ (ms : List Market) (k : Nat) (ledger : List Trade) (j : Nat), j < ms.length →
      Event.analyzeE (k + j) ∈
        (analyze_and_alert_go threshold ask_peer dmAvail mbAvail oracles k ms ledger).2.2 := by
  intro ms
  induction ms with
  | nil =>
    intro k ledger j hj
    simp at hj
  | cons m rest ih =>
    intro k ledger j hj
    simp only [analyze_and_alert_go, List.mem_append]
    cases j with
    | zero =>
      left
      exact process_item_analyze_mem threshold ask_peer dmAvail mbAvail k m (oracles k) ledger
    | succ jj =>
      right; right
      have hjj : jj < rest.length := by simpa using hj
      have := ih (k + 1)
        (process_item threshold ask_peer dmAvail mbAvail k m (oracles k) ledger).ledger
        jj hjj
      have harith : k + 1 + jj = k + (jj + 1) := by omega
      rw [harith] at this
      exact this

theorem go_notmem_of_error (threshold : Int) (ask_peer : Option String)
    (dmAvail mbAvail : Bool) (oracles : Nat → ItemOracle) (i : Nat) (er : PyErr)
    (herr : (oracles i).analysis = .error er) (e : Event)
    (hidx : e.idx = i) (hA : e ≠ .analyzeE i) (hE : e ≠ .errorE i) :
    ∀ (ms : List Market) (k : Nat), k ≤ i → ∀ ledger : List Trade,
      e ∉ (analyze_and_alert_go threshold ask_peer dmAvail mbAvail oracles k ms ledger).2.2 := by
  intro ms
  induction ms with
  | nil =>
    intro k _ ledger he
    simp [analyze_and_alert_go] at he
  | cons m rest ih =>
    intro k hk ledger he
    simp only [analyze_and_alert_go, List.mem_append, mem_if_singleton_iff] at he
    rcases he with he | he | he
    · rcases Nat.eq_or_lt_of_le hk with heq | hlt
      · subst heq
        rw [process_item_of_analysis_error threshold ask_peer dmAvail mbAvail
          k m (oracles k) ledger er herr] at he
        simp only [List.mem_cons, List.not_mem_nil, or_false] at he
        rcases he with h | h
        · exact hA h
        · exact hE h
      · have := process_item_events_idx threshold ask_peer dmAvail mbAvail
          k m (oracles k) ledger e he
        omega
    · rcases Nat.eq_or_lt_of_le hk with heq | hlt
      · subst heq
        rw [process_item_of_analysis_error threshold ask_peer dmAvail mbAvail
          k m (oracles k) ledger er herr] at he
        simp at he
      · have : e.idx = k := by rw [he.1]; rfl
        omega
    · rcases Nat.eq_or_lt_of_le hk with heq | hlt
      · subst heq
        have := go_idx_ge threshold ask_peer dmAvail mbAvail oracles rest (k + 1) _ e he
        omega
      · exact ih (k + 1) hlt _ he

theorem go_sleep_iff (threshold : Int) (ask_peer : Option String)
    (dmAvail mbAvail : Bool) (oracles : Nat → ItemOracle) :
    ∀ (ms : List Market) (k : Nat) (ledger : List Trade) (i : Nat),
      (Event.sleepE i ∈
        (analyze_and_alert_go threshold ask_peer dmAvail mbAvail oracles k ms ledger).2.2) ↔
      (k ≤ i ∧ i + 1 < k + ms.length ∧
        Event.errorE i ∉
          (analyze_and_alert_go threshold ask_peer dmAvail mbAvail oracles k ms ledger).2.2) := by
  intro ms
  induction ms with
  | nil =>
    intro k ledger i
    simp only [analyze_and_alert_go, List.not_mem_nil, List.length_nil, false_iff]
    intro h
    omega
  | cons m rest ih =>
    intro k ledger i
    simp only [analyze_and_alert_go, List.mem_append, mem_if_singleton_iff,
      List.length_cons]
    have hpe := process_item_no_sleep threshold ask_peer dmAvail mbAvail
      k m (oracles k) ledger i
    have herrpe := process_item_error_iff threshold ask_peer dmAvail mbAvail
      k m (oracles k) ledger i
    have hnext := go_idx_ge threshold ask_peer dmAvail mbAvail oracles rest (k + 1)
      (process_item threshold ask_peer dmAvail mbAvail k m (oracles k) ledger).ledger
    by_cases hik : i = k
    · subst hik
      constructor
      · rintro (he | he | he)
        · exact absurd he hpe
        · refine ⟨le_refl i, ?_, ?_⟩
          · have : rest ≠ [] := he.2.2
            have : 0 < rest.length := List.length_pos.mpr this
            omega
          · rintro (h | h | h)
            · have := (herrpe.mp h).2
              rw [this] at he
              simp at he
            · exact Event.noConfusion h.1
            · have := hnext _ h
              simp [Event.idx] at this
        · have := hnext _ he
          simp [Event.idx] at this
      · rintro ⟨_, hlen, hnot⟩
        right; left
        refine ⟨rfl, ?_, ?_⟩
        · by_contra hraised
          apply hnot
          left
          exact herrpe.mpr ⟨rfl, by simpa using hraised⟩
        · intro hnil
          rw [hnil] at hlen
          simp at hlen
    · have hpe2 : Event.errorE i ∉ (process_item threshold ask_peer dmAvail mbAvail
          k m (oracles k) ledger).events := by
        intro h
        exact hik (herrpe.mp h).1
      constructor
      · rintro (he | he | he)
        · exact absurd he hpe
        · exact absurd (Event.sleepE.inj he.1) hik
        · have hih := (ih (k + 1) _ i).mp he
          refine ⟨by omega, by omega, ?_⟩
          rintro (h | h | h)
          · exact hpe2 h
          · exact Event.noConfusion h.1
          · exact hih.2.2 h
      · rintro ⟨hki, hlen, hnot⟩
        right; right
        refine (ih (k + 1) _ i).mpr ⟨by omega, by omega, ?_⟩
        intro h
        exact hnot (Or.inr (Or.inr h))

theorem add_trade_ok_cases (now : String) (m : Market) (pos : PyAtom)
    (c : Int) (trades l : List Trade)
    (h : add_trade now m pos c trades = .ok l) :
    l = trades ∨ ∃ ep : ℚ, l = trades ++
      [⟨m.id, m.question, pos, ep, c, now, "open", none, none, none⟩] := by
  unfold add_trade at h
  split at h
  · left
    injection h with h
    exact h.symm
  · split at h
    · exact Except.noConfusion h
    · right
      injection h with h
      exact ⟨_, h.symm⟩

/-
Claim theorems.
-/

/-- C1: the claim says record(market, position, confidence) always appends
one open trade whose entry price is the odds value for the position (0.5
when absent) and returns normally.  On the markets the fetcher actually
builds, outcome_prices is a Python list (Market dataclass, fetcher.py line
22), and add_trade's outcome_prices.get(position, 0.5) (portfolio.py line
53) raises AttributeError, appending nothing - the documented mapping
behaviour only occurs on the dict shape that add_trade's own comment (line
52) assumes.  This theorem evaluates add_trade at the failing input (first
conjunct) and at the dict shape showing the intended lookup and 0.5
fallback (second and third conjuncts). -/
theorem c1_add_trade_attribute_error :
    add_trade "2026-01-01T00:00:00" mListYesNo (.aStr "Yes") 8 [] =
      .error .attributeError ∧
    add_trade "2026-01-01T00:00:00" mDictYesNo (.aStr "Yes") 8 [] =
      .ok [⟨"0xRain", "Will it rain tomorrow?", .aStr "Yes", 35/100, 8,
        "2026-01-01T00:00:00", "open", none, none, none⟩] ∧
    add_trade "2026-01-01T00:00:00" mDictYesNo (.aStr "Maybe") 8 [] =
      .ok [⟨"0xRain", "Will it rain tomorrow?", .aStr "Maybe", 1/2, 8,
        "2026-01-01T00:00:00", "open", none, none, none⟩] :=
  ⟨rfl, rfl, rfl⟩

/-- C10: add_trade is append-only: the persisted ledger after any call is
the old list of trades, possibly extended by trades that are open with
exit_price, pnl and resolved_date all null; every pre-existing record is
kept unchanged (it is a prefix of the result).  When the call raises, the
save is never reached and the ledger is exactly the old list. -/
theorem c10_append_only (now : String) (m : Market) (pos : PyAtom) (c : Int)
    (trades : List Trade) :
    ∃ rest, add_trade_run now m pos c trades = trades ++ rest ∧
      ∀ t ∈ rest, t.status = "open" ∧ t.exit_price = none ∧ t.pnl = none ∧
        t.resolved_date = none := by
  unfold add_trade_run
  rcases h : add_trade now m pos c trades with e | l
  · exact ⟨[], by simp, by simp⟩
  · rcases add_trade_ok_cases now m pos c trades l h with h2 | ⟨ep, h2⟩
    · exact ⟨[], by simp [h2], by simp⟩
    · refine ⟨[⟨m.id, m.question, pos, ep, c, now, "open", none, none, none⟩],
        by rw [h2], ?_⟩
      intro t ht
      simp only [List.mem_singleton] at ht
      subst ht
      exact ⟨rfl, rfl, rfl, rfl⟩

/-- C7: record is idempotent for open trades.  When the ledger has no open
trade for the market id and the market's odds value is a mapping (so the
first call actually creates the trade the claim speaks of), a second call
with the same market id hits the duplicate-open check (portfolio.py line
48) and is a silent no-op returning normally, leaving exactly one open
trade with that id. -/
theorem c7_record_idempotent (now now2 : String) (m : Market) (pos pos2 : PyAtom)
    (c c2 : Int) (trades : List Trade) (d : List (String × ℚ))
    (h0 : hasOpenTrade m.id trades = false)
    (hd : m.outcome_prices = .dictV d) :
    add_trade now2 m pos2 c2 (add_trade_run now m pos c trades) =
      .ok (add_trade_run now m pos c trades) ∧
    add_trade_run now2 m pos2 c2 (add_trade_run now m pos c trades) =
      add_trade_run now m pos c trades ∧
    openCountFor m.id
      (add_trade_run now2 m pos2 c2 (add_trade_run now m pos c trades)) = 1 := by
  have hfirst : ∃ ep : ℚ, add_trade now m pos c trades =
      .ok (trades ++ [⟨m.id, m.question, pos, ep, c, now, "open", none, none, none⟩]) := by
    unfold add_trade
    simp only [h0, Bool.false_eq_true, if_false]
    rw [hd]
    cases pos <;> exact ⟨_, rfl⟩
  obtain ⟨ep, hfirst⟩ := hfirst
  have hrun : add_trade_run now m pos c trades =
      trades ++ [⟨m.id, m.question, pos, ep, c, now, "open", none, none, none⟩] := by
    unfold add_trade_run
    rw [hfirst]
  have hopen : hasOpenTrade m.id
      (trades ++ [⟨m.id, m.question, pos, ep, c, now, "open", none, none, none⟩]) = true := by
    unfold hasOpenTrade
    simp
  have hsecond : add_trade now2 m pos2 c2
      (trades ++ [⟨m.id, m.question, pos, ep, c, now, "open", none, none, none⟩]) =
      .ok (trades ++ [⟨m.id, m.question, pos, ep, c, now, "open", none, none, none⟩]) := by
    unfold add_trade
    simp only [hopen, if_true]
  have hfilter : trades.filter (fun t => t.status == "open" && t.id == m.id) = [] := by
    rw [List.filter_eq_nil_iff]
    intro t ht
    have := List.any_eq_false.mp h0 t ht
    simpa using this
  refine ⟨by rw [hrun]; exact hsecond, ?_, ?_⟩
  · rw [hrun]
    unfold add_trade_run
    rw [hsecond]
  · rw [hrun]
    unfold add_trade_run
    rw [hsecond]
    unfold openCountFor
    rw [List.filter_append, hfilter]
    simp

/-- C7 witness: the idempotence theorem applied to a concrete dict-odds
market and an empty ledger. -/
theorem c7_record_idempotent_witness :
    add_trade "t2" mDictYesNo (.aStr "Yes") 9
      (add_trade_run "t1" mDictYesNo (.aStr "Yes") 8 []) =
      .ok (add_trade_run "t1" mDictYesNo (.aStr "Yes") 8 []) ∧
    add_trade_run "t2" mDictYesNo (.aStr "Yes") 9
      (add_trade_run "t1" mDictYesNo (.aStr "Yes") 8 []) =
      add_trade_run "t1" mDictYesNo (.aStr "Yes") 8 [] ∧
    openCountFor mDictYesNo.id
      (add_trade_run "t2" mDictYesNo (.aStr "Yes") 9
        (add_trade_run "t1" mDictYesNo (.aStr "Yes") 8 [])) = 1 :=
  c7_record_idempotent "t1" "t2" mDictYesNo (.aStr "Yes") (.aStr "Yes") 8 9 []
    [("Yes", 35/100), ("No", 65/100)] rfl rfl

/-- C6 counterexample: on an empty ledger (no closed trades) the summary
dict contains only six keys - the wins key is absent - so the claim that
every ledger state yields a record with exactly the seven listed keys fails. -/
theorem c6_missing_wins_key :
    (get_performance_summary []).map Prod.fst =
      ["total_trades", "open_trades", "closed_trades", "win_rate",
       "total_pnl", "roi"] ∧
    "wins" ∉ (get_performance_summary []).map Prod.fst := by
  constructor
  · rfl
  · decide

/-- C6 amended: when closed_trades = 0 the summary contains exactly the six
keys total_trades, open_trades, closed_trades, win_rate, total_pnl, roi,
the last three all 0; otherwise it contains exactly the seven claimed keys
with win_rate = wins/closed×100, total_pnl the sum of non-null pnl over
closed trades, and roi = total_pnl/closed×100. -/
theorem c6_summary_formulas (trades : List Trade) :
    get_performance_summary trades =
      if (trades.filter fun t => !(t.status == "open")) = [] then
        [("total_trades", (trades.length : ℚ)),
         ("open_trades", (((trades.filter fun t => t.status == "open").length : ℚ))),
         ("closed_trades", 0), ("win_rate", 0), ("total_pnl", 0), ("roi", 0)]
      else
        [("total_trades", (trades.length : ℚ)),
         ("open_trades", (((trades.filter fun t => t.status == "open").length : ℚ))),
         ("closed_trades", (((trades.filter fun t => !(t.status == "open")).length : ℚ))),
         ("wins", ((((trades.filter fun t => !(t.status == "open")).filter
            fun t => t.status == "won").length : ℚ))),
         ("win_rate", ((((trades.filter fun t => !(t.status == "open")).filter
            fun t => t.status == "won").length : ℚ) /
            (((trades.filter fun t => !(t.status == "open")).length : ℚ))) * 100),
         ("total_pnl", (((trades.filter fun t => !(t.status == "open")).filterMap
            fun t => t.pnl).sum : ℚ)),
         ("roi", ((((trades.filter fun t => !(t.status == "open")).filterMap
            fun t => t.pnl).sum : ℚ) /
            (((trades.filter fun t => !(t.status == "open")).length : ℚ))) * 100)] := by
  unfold get_performance_summary
  by_cases h : (trades.filter fun t => !(t.status == "open")) = []
  · simp [h]
  · have hne : (trades.filter fun t => !(t.status == "open")).isEmpty = false := by
      simpa [List.isEmpty_iff] using h
    have hpos : 0 < (trades.filter fun t => !(t.status == "open")).length :=
      List.length_pos.mpr h
    have hsum : ((trades.filter fun t => !(t.status == "open")).map
        fun _ => (1 : ℚ)).sum =
        ((trades.filter fun t => !(t.status == "open")).length : ℚ) := by
      simp [List.map_const', List.sum_replicate, nsmul_eq_mul]
    simp only [hne, Bool.false_eq_true, if_false, if_neg h, hsum]
    have hq : (0 : ℚ) < ((trades.filter fun t => !(t.status == "open")).length : ℚ) := by
      exact_mod_cast hpos
    rw [if_pos hq]

/-- C2 counterexample: a raw listing with three outcomes and two prices,
every field individually parseable, is kept by the parsing loop and
forwarded in the batch, so the claim that mismatched-length listings are
excluded (and the invariant len(outcomes) == len(outcome_prices)) fails. -/
theorem c2_mismatch_not_excluded :
    (get_active_markets_parse [itemMismatch]).length = 1 ∧
    ∀ m ∈ get_active_markets_parse [itemMismatch],
      m.outcomes.length = 3 ∧ oddsLen m.outcome_prices = 2 := by
  constructor
  · rfl
  · decide

/-- C2 amended: the parsing step of get_active_markets keeps exactly the
listings whose field conversion succeeds (skipping those whose parse raises
ValueError/KeyError/TypeError); it performs no comparison of the outcomes
and outcome-prices lengths, so a mismatched listing whose fields parse is
included in the returned batch. -/
theorem c2_parse_keeps_successes (items : List RawItem) :
    get_active_markets_parse items =
      items.filterMap fun it => (parse_item it).toOption := by
  induction items with
  | nil => rfl
  | cons it rest ih =>
    simp only [get_active_markets_parse, List.filterMap_cons]
    rcases h : parse_item it with e | m <;> simp [h, Except.toOption, ih]

/-- C3 counterexample: an analyze response whose JSON parses but carries a
non-numeric confidence_score string makes int() raise ValueError, which is
not in the except tuple of OpenRouterAnalyzer.analyze_market and propagates
to the caller instead of being converted into the synthetic analysis. -/
theorem c3_value_error_propagates :
    analyze_market "Will it rain tomorrow?" ["Yes", "No"] [35/100, 65/100]
      (.ok badConfidenceResult) = .error .valueError := rfl

/-- C3 amended: failures of the caught classes - json.JSONDecodeError,
KeyError, TypeError and requests.RequestException - are converted into the
synthetic EdgeAnalysis with confidence_score = 1, has_edge = false and a
reasoning text describing the failure; exceptions outside that tuple (such
as the ValueError above) propagate. -/
theorem c3_caught_failures_downgraded (question : String) (outcomes : List String)
    (prices : List ℚ) (e : PyErr) (h : caughtOR e = true) :
    analyze_market question outcomes prices (.error e) =
      .ok { market_question := question
            confidence_score := 1
            has_edge := false
            reasoning := "Analysis failed: " ++ pyErrStr e
            recommended_position := .aNone
            current_odds := currentOdds outcomes prices } := by
  have hinner : analyze_market_inner question outcomes prices (.error e) = .error e := rfl
  simp [analyze_market, hinner, h, syntheticAnalysis]

/-- C3 witness: the amended theorem applied to a network failure of the
HTTP call. -/
theorem c3_caught_failures_downgraded_witness :
    analyze_market "Q" ["Yes"] [1/2] (.error .requestException) =
      .ok { market_question := "Q"
            confidence_score := 1
            has_edge := false
            reasoning := "Analysis failed: " ++ pyErrStr .requestException
            recommended_position := .aNone
            current_odds := currentOdds ["Yes"] [1/2] } :=
  c3_caught_failures_downgraded "Q" ["Yes"] [1/2] .requestException rfl

theorem process_item_worthy_add_err (threshold : Int) (ask_peer : Option String)
    (dmAvail mbAvail : Bool) (i : Nat) (m : Market) (o : ItemOracle)
    (ledger : List Trade) (a : EdgeAnalysis) (er : PyErr)
    (ha : o.analysis = .ok a) (hedge : a.has_edge = true)
    (hconf : threshold ≤ a.confidence_score)
    (hat : add_trade o.now m a.recommended_position a.confidence_score ledger =
      .error er) :
    process_item threshold ask_peer dmAvail mbAvail i m o ledger =
      ⟨ledger, 0, [.analyzeE i, .recordE i, .errorE i], true⟩ := by
  simp only [process_item, ha, hedge, true_and]
  rw [if_pos hconf, hat]

theorem process_item_worthy_add_ok (threshold : Int) (ask_peer : Option String)
    (dmAvail mbAvail : Bool) (i : Nat) (m : Market) (o : ItemOracle)
    (ledger : List Trade) (a : EdgeAnalysis) (l2 : List Trade)
    (ha : o.analysis = .ok a) (hedge : a.has_edge = true)
    (hconf : threshold ≤ a.confidence_score)
    (hat : add_trade o.now m a.recommended_position a.confidence_score ledger =
      .ok l2) :
    process_item threshold ask_peer dmAvail mbAvail i m o ledger =
      ⟨l2, if o.tgOk then 1 else 0,
       [Event.analyzeE i, Event.recordE i]
         ++ (if ask_peer.isSome = true ∧ dmAvail = true then [Event.dmE i] else [])
         ++ [Event.tgE i]
         ++ (if mbAvail = true then [Event.mbE i] else []),
       false⟩ := by
  simp only [process_item, ha, hedge, true_and]
  rw [if_pos hconf, hat]

/-- C4: the claim says a ledger trade is recorded and notifications are sent
exactly for the alert-worthy markets (has_edge and confidence at or above
the threshold, default 7).  On a fetcher market (list-valued
outcome_prices) an alert-worthy analysis makes add_trade raise
AttributeError, which the per-item except clause swallows before
send_alert runs, so the batch ends with no ledger entry, no Telegram
attempt and alerts_sent = 0 despite the edge with confidence 9 - the
admission rule in main.py line 71 is as claimed, but the record/notify
consequence fails.  This theorem evaluates the orchestrator at that
failing input. -/
theorem c4_alert_worthy_without_side_effects :
    edgeAnalysis9.has_edge = true ∧
    (7 : Int) ≤ edgeAnalysis9.confidence_score ∧
    (oracleWorthy 0).analysis = .ok edgeAnalysis9 ∧
    analyze_and_alert 7 false none false oracleWorthy [mListYesNo] [] =
      (0, [], [.analyzeE 0, .recordE 0, .errorE 0]) :=
  ⟨rfl, by decide, rfl, rfl⟩

/-- C5 counterexample: in a two-market batch whose first analyzer call
raises, the caught exception triggers continue, which skips the rate-limit
sleep, so no sleep event separates the two items - against the claim that
the pause applies uniformly, including after items whose processing ended
in a caught exception. -/
theorem c5_no_sleep_after_caught_error :
    ([mListYesNo, mListYesNo] : List Market).length = 2 ∧
    (oracleFirstRaises 0).analysis = .error .requestException ∧
    (analyze_and_alert 7 false none false oracleFirstRaises
      [mListYesNo, mListYesNo] []).2.2 = [.analyzeE 0, .errorE 0, .analyzeE 1] ∧
    Event.sleepE 0 ∉ (analyze_and_alert 7 false none false oracleFirstRaises
      [mListYesNo, mListYesNo] []).2.2 :=
  ⟨rfl, rfl, rfl, by decide⟩

/-- C5 amended: the orchestrator sleeps after an item exactly when the item
is not the last of the batch and its processing completed without a caught
exception; when the per-item except clause fires, continue skips the
delay. -/
theorem c5_sleep_iff_no_caught_error (threshold : Int) (post_to_moltbook : Bool)
    (ask_peer : Option String) (importOk : Bool) (oracles : Nat → ItemOracle)
    (markets : List Market) (ledger0 : List Trade) (i : Nat) :
    Event.sleepE i ∈ (analyze_and_alert threshold post_to_moltbook ask_peer
      importOk oracles markets ledger0).2.2 ↔
    (i + 1 < markets.length ∧
      Event.errorE i ∉ (analyze_and_alert threshold post_to_moltbook ask_peer
        importOk oracles markets ledger0).2.2) := by
  have := go_sleep_iff threshold ask_peer
    ((post_to_moltbook || ask_peer.isSome) && importOk)
    ((post_to_moltbook || ask_peer.isSome) && importOk) oracles markets 0 ledger0 i
  simpa [analyze_and_alert] using this

/-- C8: per-item failure isolation.  Whenever the analyzer raises for the
market at index i, the orchestrator still issues an analyze call for every
market of the batch (the exception is caught and the loop continues,
returning normally since every per-item exception is consumed), and market
i contributes no add_trade call, no Telegram send, no peer DM and no
Moltbook post. -/
theorem c8_per_item_isolation (threshold : Int) (post_to_moltbook : Bool)
    (ask_peer : Option String) (importOk : Bool) (oracles : Nat → ItemOracle)
    (markets : List Market) (ledger0 : List Trade) (i : Nat) (er : PyErr)
    (_hi : i < markets.length)
    (herr : (oracles i).analysis = .error er) :
    (∀ j, j < markets.length → Event.analyzeE j ∈ (analyze_and_alert threshold
      post_to_moltbook ask_peer importOk oracles markets ledger0).2.2) ∧
    Event.recordE i ∉ (analyze_and_alert threshold post_to_moltbook ask_peer
      importOk oracles markets ledger0).2.2 ∧
    Event.tgE i ∉ (analyze_and_alert threshold post_to_moltbook ask_peer
      importOk oracles markets ledger0).2.2 ∧
    Event.dmE i ∉ (analyze_and_alert threshold post_to_moltbook ask_peer
      importOk oracles markets ledger0).2.2 ∧
    Event.mbE i ∉ (analyze_and_alert threshold post_to_moltbook ask_peer
      importOk oracles markets ledger0).2.2 := by
  refine ⟨?_, ?_, ?_, ?_, ?_⟩
  · intro j hj
    have := go_analyze_mem threshold ask_peer
      ((post_to_moltbook || ask_peer.isSome) && importOk)
      ((post_to_moltbook || ask_peer.isSome) && importOk) oracles markets 0 ledger0 j hj
    rw [Nat.zero_add] at this
    exact this
  · exact go_notmem_of_error threshold ask_peer
      ((post_to_moltbook || ask_peer.isSome) && importOk)
      ((post_to_moltbook || ask_peer.isSome) && importOk) oracles i er herr
      (.recordE i) rfl (by intro h; injection h) (by intro h; injection h)
      markets 0 (Nat.zero_le i) ledger0
  · exact go_notmem_of_error threshold ask_peer
      ((post_to_moltbook || ask_peer.isSome) && importOk)
      ((post_to_moltbook || ask_peer.isSome) && importOk) oracles i er herr
      (.tgE i) rfl (by intro h; injection h) (by intro h; injection h)
      markets 0 (Nat.zero_le i) ledger0
  · exact go_notmem_of_error threshold ask_peer
      ((post_to_moltbook || ask_peer.isSome) && importOk)
      ((post_to_moltbook || ask_peer.isSome) && importOk) oracles i er herr
      (.dmE i) rfl (by intro h; injection h) (by intro h; injection h)
      markets 0 (Nat.zero_le i) ledger0
  · exact go_notmem_of_error threshold ask_peer
      ((post_to_moltbook || ask_peer.isSome) && importOk)
      ((post_to_moltbook || ask_peer.isSome) && importOk) oracles i er herr
      (.mbE i) rfl (by intro h; injection h) (by intro h; injection h)
      markets 0 (Nat.zero_le i) ledger0

/-- C8 witness: the isolation theorem applied to a three-market batch whose
middle analyzer call raises. -/
theorem c8_per_item_isolation_witness :
    (∀ j, j < ([mListYesNo, mListYesNo, mListYesNo] : List Market).length →
      Event.analyzeE j ∈ (analyze_and_alert 7 false none false oracleMidRaises
        [mListYesNo, mListYesNo, mListYesNo] []).2.2) ∧
    Event.recordE 1 ∉ (analyze_and_alert 7 false none false oracleMidRaises
      [mListYesNo, mListYesNo, mListYesNo] []).2.2 ∧
    Event.tgE 1 ∉ (analyze_and_alert 7 false none false oracleMidRaises
      [mListYesNo, mListYesNo, mListYesNo] []).2.2 ∧
    Event.dmE 1 ∉ (analyze_and_alert 7 false none false oracleMidRaises
      [mListYesNo, mListYesNo, mListYesNo] []).2.2 ∧
    Event.mbE 1 ∉ (analyze_and_alert 7 false none false oracleMidRaises
      [mListYesNo, mListYesNo, mListYesNo] []).2.2 :=
  c8_per_item_isolation 7 false none false oracleMidRaises
    [mListYesNo, mListYesNo, mListYesNo] [] 1 .requestException (by decide) rfl

/-- C9: for an alert-worthy market the loop body attempts add_trade
strictly before send_alert - in the emitted event list every Telegram send
is preceded by the record attempt - and whenever add_trade raises, the
caught exception prevents the Telegram send and the item contributes 0 to
alerts_sent and leaves the ledger unchanged. -/
theorem c9_record_before_send (threshold : Int) (ask_peer : Option String)
    (dmAvail mbAvail : Bool) (i : Nat) (m : Market) (o : ItemOracle)
    (ledger : List Trade) (a : EdgeAnalysis)
    (ha : o.analysis = .ok a) (hedge : a.has_edge = true)
    (hconf : threshold ≤ a.confidence_score) :
    (∀ l1 l2, (process_item threshold ask_peer dmAvail mbAvail i m o ledger).events =
        l1 ++ Event.tgE i :: l2 → Event.recordE i ∈ l1) ∧
    (∀ er, add_trade o.now m a.recommended_position a.confidence_score ledger =
        .error er →
      Event.tgE i ∉ (process_item threshold ask_peer dmAvail mbAvail i m o ledger).events ∧
      (process_item threshold ask_peer dmAvail mbAvail i m o ledger).inc = 0 ∧
      (process_item threshold ask_peer dmAvail mbAvail i m o ledger).ledger = ledger) := by
  rcases hat : add_trade o.now m a.recommended_position a.confidence_score ledger with
    er0 | l0
  · rw [process_item_worthy_add_err threshold ask_peer dmAvail mbAvail i m o ledger
      a er0 ha hedge hconf hat]
    refine ⟨?_, ?_⟩
    · intro l1 l2 hdec
      exfalso
      have hdec2 : [Event.analyzeE i, Event.recordE i, Event.errorE i] =
          l1 ++ Event.tgE i :: l2 := hdec
      have : Event.tgE i ∈ [Event.analyzeE i, Event.recordE i, Event.errorE i] := by
        rw [hdec2]
        exact List.mem_append_right _ (List.mem_cons_self _ _)
      simp at this
    · intro er her
      refine ⟨by simp, rfl, rfl⟩
  · rw [process_item_worthy_add_ok threshold ask_peer dmAvail mbAvail i m o ledger
      a l0 ha hedge hconf hat]
    refine ⟨?_, ?_⟩
    · intro l1 l2 hdec
      have hdec2 : ([Event.analyzeE i, Event.recordE i]
          ++ (if ask_peer.isSome = true ∧ dmAvail = true then [Event.dmE i] else [])
          ++ [Event.tgE i]
          ++ (if mbAvail = true then [Event.mbE i] else [])) =
          l1 ++ Event.tgE i :: l2 := hdec
      simp only [List.cons_append, List.nil_append, List.append_assoc] at hdec2
      exact mem_of_append_cons_two (Event.analyzeE i) (Event.recordE i)
        (Event.tgE i) _ l1 l2 hdec2 (by intro h; injection h) (by intro h; injection h)
    · intro er her
      exact Except.noConfusion her

/-- C9 witness: the ordering theorem applied to a concrete alert-worthy
market whose record step raises (list-valued odds). -/
theorem c9_record_before_send_witness :
    (∀ l1 l2, (process_item 7 none false false 0 mListYesNo (oracleWorthy 0) []).events =
        l1 ++ Event.tgE 0 :: l2 → Event.recordE 0 ∈ l1) ∧
    (∀ er, add_trade (oracleWorthy 0).now mListYesNo
        edgeAnalysis9.recommended_position edgeAnalysis9.confidence_score [] =
        .error er →
      Event.tgE 0 ∉ (process_item 7 none false false 0 mListYesNo (oracleWorthy 0) []).events ∧
      (process_item 7 none false false 0 mListYesNo (oracleWorthy 0) []).inc = 0 ∧
      (process_item 7 none false false 0 mListYesNo (oracleWorthy 0) []).ledger = []) :=
  c9_record_before_send 7 none false false 0 mListYesNo (oracleWorthy 0) []
    edgeAnalysis9 rfl rfl (by decide)

end Polyvuvu
